import Mathlib

/-!
Verification of the TranslationAPIBackend core: the job record and status
resolver (`TranslationJob.get_status`), the retrying webhook notifier
(`WebhookService.send_webhook`), the transition monitor
(`_monitor_job_status`), and the HTTP lookup handlers, shallowly embedded
from `src/main.py` and `src/server.py`.

Modelling conventions:
- wall-clock times and durations are rationals (`ℚ`);
- a UUID is modelled as a natural number (only identity matters);
- one outbound HTTP attempt is modelled by `Option Nat`: `none` is a raised
  `requests.RequestException` (transport failure or timeout), `some c` is a
  response with HTTP status code `c`;
- `requests`' `Response.ok` is `status_code < 400` (`raise_for_status`
  raises exactly for codes in [400, 600)), embedded as `respOk`;
- `asyncio.sleep` calls are recorded as a list of slept durations.
-/

/-- Job status, from the `Status` enum in `src/main.py`. -/
inductive Status where
  | pending
  | error
  | completed
deriving DecidableEq, Repr

/-- The mutable record of `TranslationJob.__init__` in `src/main.py`.
`has_error` is the fault flag drawn once at creation (`random.random() <
error_probability`); the draw itself is nondeterministic, so the flag is a
free field here.  `webhook_attempts` and `last_webhook_attempt` are the
delivery-attempt state mutated by the notifier. -/
structure Job where
  id : Nat
  start_time : ℚ
  duration : ℚ
  webhook_url : String
  has_error : Bool
  webhook_attempts : Nat
  last_webhook_attempt : Option ℚ
deriving DecidableEq, Repr

/-- `TranslationJob.get_status` from `src/main.py`: `ERROR` if the fault
flag is set, else `COMPLETED` once `time.time() - start_time > duration`
(strict), else `PENDING`.  `now` stands for `time.time()`. -/
def Job.get_status (j : Job) (now : ℚ) : Status :=
  if j.has_error then Status.error
  else if now - j.start_time > j.duration then Status.completed
  else Status.pending

/-- `WebhookService.MAX_RETRIES` in `src/main.py`. -/
def MAX_RETRIES : Nat := 3

/-- `WebhookService.RETRY_DELAY` in `src/main.py` (seconds). -/
def RETRY_DELAY : Nat := 5

/-- `requests.Response.ok`: true exactly when `raise_for_status` would not
raise, i.e. the status code is below 400. -/
def respOk (c : Nat) : Bool := c < 400

/-- Result of one call to `send_webhook`: the returned boolean, the job as
mutated by the call, the number of HTTP POSTs performed, and the list of
`asyncio.sleep` durations awaited, in order. -/
structure SendResult where
  success : Bool
  job : Job
  attempts : Nat
  waits : List Nat
deriving DecidableEq, Repr

/-- The `for attempt in range(MAX_RETRIES)` loop of
`WebhookService.send_webhook`.  `resp i` is the outcome of the POST made on
attempt index `i`; `now` stands for `datetime.datetime.now` at the moment a
successful attempt records `last_webhook_attempt`; `remaining` counts the
loop iterations left.  On an ok response the function records the timestamp
and returns `True` at once (before the counter increment); on an exception
or a non-ok response it increments `webhook_attempts`, sleeps
`RETRY_DELAY * 2**attempt`, and goes round again; falling off the loop
returns `False`. -/
def sendLoop (resp : Nat → Option Nat) (now : ℚ) :
    Job → Nat → Nat → SendResult
  | j, _, 0 => ⟨false, j, 0, []⟩
  | j, attempt, r + 1 =>
    match resp attempt with
    | some c =>
      if respOk c then
        ⟨true, { j with last_webhook_attempt := some now }, 1, []⟩
      else
        let res := sendLoop resp now
          { j with webhook_attempts := j.webhook_attempts + 1 } (attempt + 1) r
        ⟨res.success, res.job, res.attempts + 1,
          RETRY_DELAY * 2 ^ attempt :: res.waits⟩
    | none =>
      let res := sendLoop resp now
        { j with webhook_attempts := j.webhook_attempts + 1 } (attempt + 1) r
      ⟨res.success, res.job, res.attempts + 1,
        RETRY_DELAY * 2 ^ attempt :: res.waits⟩

/-- `WebhookService.send_webhook` from `src/main.py`: an empty
`webhook_url` (falsy string) returns `True` immediately; otherwise the
retry loop runs with `MAX_RETRIES` iterations starting at attempt index 0.
(The JSON payload it posts does not influence control flow and is not
modelled.) -/
def send_webhook (resp : Nat → Option Nat) (j : Job) (now : ℚ) : SendResult :=
  if j.webhook_url = "" then ⟨true, j, 0, []⟩
  else sendLoop resp now j 0 MAX_RETRIES

/-- The body of `_monitor_job_status`'s `while True` loop in `src/main.py`,
run over the successive `time.time()` values `times` seen by its
`get_status` calls (`resp` models the webhook target for the
`send_webhook` calls it makes).  On each tick it resolves
`current_status`; when that differs from `previous_status` it awaits
`send_webhook` and then — only inside that branch — breaks if
`current_status` is `COMPLETED` or `ERROR`; otherwise it stores
`previous_status := current_status` and sleeps one second.  The result is
whether the `break` was reached within the given ticks, paired with the
number of `send_webhook` calls made. -/
def monitorRun (resp : Nat → Option Nat) :
    Job → Status → List ℚ → Bool × Nat
  | _, _, [] => (false, 0)
  | j, prev, t :: ts =>
    let curr := j.get_status t
    if curr ≠ prev then
      let res := send_webhook resp j t
      if curr = Status.completed ∨ curr = Status.error then (true, 1)
      else
        let rest := monitorRun resp res.job curr ts
        (rest.1, rest.2 + 1)
    else monitorRun resp j curr ts

/-- `_monitor_job_status` itself: `previous_status` is initialised from the
same resolver (at time `t0`) before the loop begins. -/
def monitor (resp : Nat → Option Nat) (j : Job) (t0 : ℚ)
    (times : List ℚ) : Bool × Nat :=
  monitorRun resp j (j.get_status t0) times

/-- A key of the in-memory `jobs_store` dict in `src/main.py`.
`create_translation` inserts `uuid.UUID` keys; the `get_status` path
parameter arrives as `str`; in Python a `str` never compares equal to a
`UUID`, which the two constructors capture. -/
inductive Key where
  | uuid (n : Nat)
  | str (s : String)
deriving DecidableEq, Repr

/-- The `jobs_store` dict, as an association list. -/
abbrev Store := List (Key × Job)

/-- Dict key lookup: `jobs_store[id]` / `id in jobs_store`. -/
def Store.find (st : Store) (k : Key) : Option Job :=
  (List.find? (fun p => decide (p.1 = k)) st).map Prod.snd

/-- What a lookup endpoint hands back to the framework. -/
inductive LookupResult where
  | job (j : Job)
  | errorBody (key msg : String)
  | http404 (detail : String)
  | attrError
deriving DecidableEq, Repr

/-- The `GET /translations/status/{id}` handler of `src/main.py`.  The path
parameter is a `str`.  When the id is absent the handler returns the plain
dict `{"error": "Job with id: {id} was not found"}` — the value is not an
f-string, so `{id}` stays literal, and the dict is a normal return value,
not an HTTPException.  When the id is present the handler reads
`jobs_store[id].created_at`, an attribute `TranslationJob.__init__` never
sets (the field is `start_time`), raising `AttributeError`. -/
def main_get_status (st : Store) (id : String) : LookupResult :=
  match st.find (Key.str id) with
  | none => LookupResult.errorBody "error" "Job with id: {id} was not found"
  | some _ => LookupResult.attrError

/-- The `GET /translations/status/{id}` handler of `src/server.py`.  The
path parameter is parsed as a UUID (`pydantic.UUID4`); an absent id raises
`fastapi.HTTPException(status_code=404, detail=f"Job with id: {id} was not
found")`; a present id returns the job payload (via `to_dict` from the
repository's `jobs` module, which lives outside `src/`). -/
def server_get_status (st : Store) (id : Nat) : LookupResult :=
  match st.find (Key.uuid id) with
  | none =>
    LookupResult.http404 ("Job with id: " ++ toString id ++ " was not found")
  | some j => LookupResult.job j

/-- The store update done by `create_translation` in `src/main.py`:
`jobs_store[job.id] = job`, keyed by the `uuid.UUID` object. -/
def create_translation (st : Store) (j : Job) : Store :=
  (Key.uuid j.id, j) :: st

/-- A store populated only through `create_translation`, starting empty. -/
def mkStore (js : List Job) : Store :=
  js.foldl create_translation []

/-- A concrete job with a webhook URL, for witnesses. -/
def jobHooked : Job :=
  { id := 7, start_time := 0, duration := 10,
    webhook_url := "http://example.com", has_error := false,
    webhook_attempts := 0, last_webhook_attempt := none }

/-- A concrete job with an empty webhook URL, for witnesses. -/
def jobNoHook : Job :=
  { id := 8, start_time := 0, duration := 10, webhook_url := "",
    has_error := false, webhook_attempts := 0,
    last_webhook_attempt := none }

/-- A concrete faulted job (forced `faulted = true`, `duration = 100`),
for witnesses. -/
def jobFaulted : Job :=
  { id := 9, start_time := 0, duration := 100,
    webhook_url := "http://example.com", has_error := true,
    webhook_attempts := 0, last_webhook_attempt := none }

/-- C2: the status resolver returns `Error` iff `faulted` is true, returns
`Completed` when not faulted and strictly more than `duration` has elapsed,
and `Pending` when not faulted and the elapsed time is at most `duration`. -/
theorem get_status_resolver_cases (j : Job) (now : ℚ) :
    (j.has_error = true → j.get_status now = Status.error) ∧
    (j.has_error = false → now - j.start_time > j.duration →
      j.get_status now = Status.completed) ∧
    (j.has_error = false → now - j.start_time ≤ j.duration →
      j.get_status now = Status.pending) := by
  refine ⟨fun he => ?_, fun he hlt => ?_, fun he hle => ?_⟩
  · simp [Job.get_status, he]
  · simp [Job.get_status, he, hlt]
  · simp [Job.get_status, he, not_lt.mpr hle]

/-- Witness for C2 on concrete jobs: a faulted job resolves to `Error`, a
clean job past its duration to `Completed`, a clean job within it to
`Pending`. -/
theorem get_status_resolver_cases_witness :
    ({ id := 0, start_time := 0, duration := 100, webhook_url := "",
       has_error := true, webhook_attempts := 0,
       last_webhook_attempt := none } : Job).get_status 0 = Status.error ∧
    ({ id := 1, start_time := 0, duration := 2, webhook_url := "",
       has_error := false, webhook_attempts := 0,
       last_webhook_attempt := none } : Job).get_status 3 = Status.completed ∧
    ({ id := 2, start_time := 0, duration := 2, webhook_url := "",
       has_error := false, webhook_attempts := 0,
       last_webhook_attempt := none } : Job).get_status 2 = Status.pending := by
  refine ⟨(get_status_resolver_cases _ 0).1 rfl,
    (get_status_resolver_cases _ 3).2.1 rfl (by norm_num),
    (get_status_resolver_cases _ 2).2.2 rfl (by norm_num)⟩

/-- C7: status derivation is monotonic — a status that is terminal
(`Completed` or `Error`) at time `t1` is returned unchanged at every later
time `t2`. -/
theorem get_status_monotonic (j : Job) (t1 t2 : ℚ) (hle : t1 ≤ t2)
    (hterm : j.get_status t1 = Status.completed ∨
      j.get_status t1 = Status.error) :
    j.get_status t2 = j.get_status t1 := by
  unfold Job.get_status at *
  by_cases he : j.has_error
  · simp [he]
  · simp only [he, if_false, Bool.false_eq_true] at *
    rcases hterm with h | h
    · by_cases h1 : t1 - j.start_time > j.duration
      · have h2 : t2 - j.start_time > j.duration := lt_of_lt_of_le h1 (by linarith)
        simp [h1, h2]
      · simp [h1] at h
    · by_cases h1 : t1 - j.start_time > j.duration <;> simp [h1] at h

/-- Witness for C7: a clean job with duration 2 that is `Completed` at
`t1 = 3` is still `Completed` at `t2 = 10`. -/
theorem get_status_monotonic_witness :
    ({ id := 1, start_time := 0, duration := 2, webhook_url := "",
       has_error := false, webhook_attempts := 0,
       last_webhook_attempt := none } : Job).get_status 10 =
    ({ id := 1, start_time := 0, duration := 2, webhook_url := "",
       has_error := false, webhook_attempts := 0,
       last_webhook_attempt := none } : Job).get_status 3 :=
  get_status_monotonic _ 3 10 (by norm_num)
    (Or.inl (by norm_num [Job.get_status]))

/-- Unfolding one step of the backoff-delay list
`[RETRY_DELAY * 2^a, RETRY_DELAY * 2^(a+1), ...]`. -/
theorem waitsList_succ (a r : Nat) :
    (List.range (r + 1)).map (fun k => RETRY_DELAY * 2 ^ (a + k)) =
      RETRY_DELAY * 2 ^ a ::
        (List.range r).map (fun k => RETRY_DELAY * 2 ^ (a + 1 + k)) := by
  rw [List.range_succ_eq_map, List.map_cons, List.map_map]
  have hf : ((fun k => RETRY_DELAY * 2 ^ (a + k)) ∘ Nat.succ) =
      (fun k => RETRY_DELAY * 2 ^ (a + 1 + k)) := by
    funext k
    simp only [Function.comp, Nat.succ_eq_add_one]
    congr 2
    omega
  rw [hf]
  simp

/-- If every POST outcome is a failure (exception or non-ok code), the loop
runs all its iterations: no success, one counter increment and one sleep of
`RETRY_DELAY * 2^attempt` per iteration, including the final one. -/
theorem sendLoop_all_fail (resp : Nat → Option Nat) (now : ℚ)
    (hfail : ∀ i c, resp i = some c → respOk c = false) :
    ∀ (r : Nat) (j : Job) (a : Nat),
      sendLoop resp now j a r =
        ⟨false, { j with webhook_attempts := j.webhook_attempts + r }, r,
          (List.range r).map (fun k => RETRY_DELAY * 2 ^ (a + k))⟩ := by
  intro r
  induction r with
  | zero => intro j a; simp [sendLoop]
  | succ r ih =>
    intro j a
    rw [sendLoop]
    rw [waitsList_succ]
    cases hra : resp a with
    | none =>
      simp only [ih _ (a + 1)]
      simp only [SendResult.mk.injEq, Job.mk.injEq, eq_self_iff_true,
        and_true, true_and]
      omega
    | some c =>
      have hc := hfail a c hra
      simp only [hc, Bool.false_eq_true, if_false, ih _ (a + 1)]
      simp only [SendResult.mk.injEq, Job.mk.injEq, eq_self_iff_true,
        and_true, true_and]
      omega

/-- The retry loop never touches the fields that determine status: `id`,
`start_time`, `duration`, `webhook_url` and `has_error` survive unchanged. -/
theorem sendLoop_frame (resp : Nat → Option Nat) (now : ℚ) :
    ∀ (r : Nat) (j : Job) (a : Nat),
      (sendLoop resp now j a r).job.id = j.id ∧
      (sendLoop resp now j a r).job.start_time = j.start_time ∧
      (sendLoop resp now j a r).job.duration = j.duration ∧
      (sendLoop resp now j a r).job.webhook_url = j.webhook_url ∧
      (sendLoop resp now j a r).job.has_error = j.has_error := by
  intro r
  induction r with
  | zero => intro j a; exact ⟨rfl, rfl, rfl, rfl, rfl⟩
  | succ r ih =>
    intro j a
    rw [sendLoop]
    cases resp a with
    | none =>
      exact ih { j with webhook_attempts := j.webhook_attempts + 1 } (a + 1)
    | some c =>
      by_cases hc : respOk c
      · simp [hc]
      · simp only [hc, Bool.false_eq_true, if_false]
        exact ih { j with webhook_attempts := j.webhook_attempts + 1 } (a + 1)

/-- Side effects of the retry loop on the delivery-attempt state: each
failed POST adds one to `webhook_attempts` and leaves
`last_webhook_attempt` alone, while a successful POST records the
timestamp and is not counted; hence the counter grows by the attempt count
minus one when the call succeeds, and a success makes at least one
attempt. -/
theorem sendLoop_effects (resp : Nat → Option Nat) (now : ℚ) :
    ∀ (r : Nat) (j : Job) (a : Nat),
      (sendLoop resp now j a r).job.webhook_attempts =
        j.webhook_attempts + ((sendLoop resp now j a r).attempts -
          (if (sendLoop resp now j a r).success then 1 else 0)) ∧
      (sendLoop resp now j a r).job.last_webhook_attempt =
        (if (sendLoop resp now j a r).success then some now
         else j.last_webhook_attempt) ∧
      ((sendLoop resp now j a r).success = true →
        1 ≤ (sendLoop resp now j a r).attempts) := by
  intro r
  induction r with
  | zero => intro j a; exact ⟨rfl, rfl, fun h => by simp [sendLoop] at h⟩
  | succ r ih =>
    intro j a
    rw [sendLoop]
    cases resp a with
    | none =>
      obtain ⟨h1, h2, h3⟩ :=
        ih { j with webhook_attempts := j.webhook_attempts + 1 } (a + 1)
      refine ⟨?_, ?_, fun _ => Nat.succ_le_succ (Nat.zero_le _)⟩
      · cases hs :
          (sendLoop resp now
            { j with webhook_attempts := j.webhook_attempts + 1 }
            (a + 1) r).success
        · simp only [hs, Bool.false_eq_true, if_false] at h1 ⊢
          omega
        · have hpos := h3 hs
          simp only [hs, if_true] at h1 ⊢
          omega
      · exact h2
    | some c =>
      by_cases hc : respOk c
      · simp [hc]
      · simp only [hc, Bool.false_eq_true, if_false]
        obtain ⟨h1, h2, h3⟩ :=
          ih { j with webhook_attempts := j.webhook_attempts + 1 } (a + 1)
        refine ⟨?_, ?_, fun _ => Nat.succ_le_succ (Nat.zero_le _)⟩
        · cases hs :
            (sendLoop resp now
              { j with webhook_attempts := j.webhook_attempts + 1 }
              (a + 1) r).success
          · simp only [hs, Bool.false_eq_true, if_false] at h1 ⊢
            omega
          · have hpos := h3 hs
            simp only [hs, if_true] at h1 ⊢
            omega
        · exact h2

/-- With at least one loop iteration left, at least one POST is made. -/
theorem sendLoop_attempts_pos (resp : Nat → Option Nat) (now : ℚ)
    (r : Nat) (j : Job) (a : Nat) :
    1 ≤ (sendLoop resp now j a (r + 1)).attempts := by
  rw [sendLoop]
  cases resp a with
  | none => exact Nat.succ_le_succ (Nat.zero_le _)
  | some c =>
    by_cases hc : respOk c
    · simp [hc]
    · simp only [hc, Bool.false_eq_true, if_false]
      exact Nat.succ_le_succ (Nat.zero_le _)

/-- First-attempt step equation, accepting case: an ok response on the
POST of the current iteration records the timestamp and returns at once. -/
theorem sendLoop_first_ok (resp : Nat → Option Nat) (now : ℚ) (j : Job)
    (a r c : Nat) (h0 : resp a = some c) (hok : respOk c = true) :
    sendLoop resp now j a (r + 1) =
      ⟨true, { j with last_webhook_attempt := some now }, 1, []⟩ := by
  rw [sendLoop, h0]
  simp [hok]

/-- First-attempt step equation, attempt count in the failing case: an
exception or non-ok response adds one POST on top of the rest of the
loop. -/
theorem sendLoop_fail_attempts (resp : Nat → Option Nat) (now : ℚ)
    (j : Job) (a r : Nat) (h : ∀ c, resp a = some c → respOk c = false) :
    (sendLoop resp now j a (r + 1)).attempts =
      (sendLoop resp now { j with webhook_attempts := j.webhook_attempts + 1 }
        (a + 1) r).attempts + 1 := by
  rw [sendLoop]
  cases hra : resp a with
  | none => rfl
  | some c =>
    have hc := h c hra
    simp only [hc, Bool.false_eq_true, if_false]

/-- First-attempt step equation, full form of the failing case: an
exception or non-ok response increments the counter, sleeps
`RETRY_DELAY * 2^attempt`, and hands over to the remaining iterations. -/
theorem sendLoop_first_fail (resp : Nat → Option Nat) (now : ℚ)
    (j : Job) (a r : Nat) (h : ∀ c, resp a = some c → respOk c = false) :
    sendLoop resp now j a (r + 1) =
      ⟨(sendLoop resp now
          { j with webhook_attempts := j.webhook_attempts + 1 }
          (a + 1) r).success,
       (sendLoop resp now
          { j with webhook_attempts := j.webhook_attempts + 1 }
          (a + 1) r).job,
       (sendLoop resp now
          { j with webhook_attempts := j.webhook_attempts + 1 }
          (a + 1) r).attempts + 1,
       RETRY_DELAY * 2 ^ a ::
         (sendLoop resp now
           { j with webhook_attempts := j.webhook_attempts + 1 }
           (a + 1) r).waits⟩ := by
  rw [sendLoop]
  cases hra : resp a with
  | none => rfl
  | some c =>
    have hc := h c hra
    simp only [hc, Bool.false_eq_true, if_false]

/-- First-attempt step equation, returned boolean of the failing case. -/
theorem sendLoop_fail_success (resp : Nat → Option Nat) (now : ℚ)
    (j : Job) (a r : Nat) (h : ∀ c, resp a = some c → respOk c = false) :
    (sendLoop resp now j a (r + 1)).success =
      (sendLoop resp now { j with webhook_attempts := j.webhook_attempts + 1 }
        (a + 1) r).success := by
  rw [sendLoop]
  cases hra : resp a with
  | none => rfl
  | some c =>
    have hc := h c hra
    simp only [hc, Bool.false_eq_true, if_false]

/-- Success at an arbitrary attempt index: if the POSTs of the first `k`
iterations all fail and iteration `k`'s POST draws an ok response, the
loop returns success right there — `k + 1` attempts in all, the counter
grown by the `k` failures, the timestamp recorded, and one backoff wait
after each failure but none after the success. -/
theorem sendLoop_succeeds_at (resp : Nat → Option Nat) (now : ℚ) :
    ∀ (k : Nat) (j : Job) (a r : Nat), k < r →
      (∀ i, i < k → ∀ c, resp (a + i) = some c → respOk c = false) →
      ∀ c, resp (a + k) = some c → respOk c = true →
      sendLoop resp now j a r =
        ⟨true,
         { j with webhook_attempts := j.webhook_attempts + k,
                  last_webhook_attempt := some now },
         k + 1,
         (List.range k).map (fun i => RETRY_DELAY * 2 ^ (a + i))⟩ := by
  intro k
  induction k with
  | zero =>
    intro j a r hr hfail c hc hok
    obtain ⟨r', rfl⟩ : ∃ r', r = r' + 1 := ⟨r - 1, by omega⟩
    rw [sendLoop_first_ok resp now j a r' c (by simpa using hc) hok]
    simp
  | succ k ih =>
    intro j a r hr hfail c hc hok
    obtain ⟨r', rfl⟩ : ∃ r', r = r' + 1 := ⟨r - 1, by omega⟩
    rw [sendLoop_first_fail resp now j a r'
      (fun c' hc' => hfail 0 (Nat.succ_pos k) c' (by simpa using hc'))]
    rw [ih { j with webhook_attempts := j.webhook_attempts + 1 } (a + 1) r'
      (by omega)
      (fun i hi c' hc' => hfail (i + 1) (by omega) c'
        (by rw [show a + (i + 1) = a + 1 + i from by omega]; exact hc'))
      c (by rw [show a + 1 + k = a + (k + 1) from by omega]; exact hc) hok]
    rw [waitsList_succ]
    simp only [SendResult.mk.injEq, Job.mk.injEq, eq_self_iff_true,
      and_true, true_and]
    omega

/-- If the POSTs of the first `m` loop iterations all fail, a successful
call must have made strictly more than `m` attempts. -/
theorem sendLoop_fail_lower (resp : Nat → Option Nat) (now : ℚ) :
    ∀ (m : Nat) (j : Job) (a r : Nat), m ≤ r →
      (∀ i, i < m → ∀ c, resp (a + i) = some c → respOk c = false) →
      (sendLoop resp now j a r).success = true →
      m + 1 ≤ (sendLoop resp now j a r).attempts := by
  intro m
  induction m with
  | zero =>
    intro j a r hr hfail hs
    exact (sendLoop_effects resp now r j a).2.2 hs
  | succ m ih =>
    intro j a r hr hfail hs
    obtain ⟨r', rfl⟩ : ∃ r', r = r' + 1 := ⟨r - 1, by omega⟩
    have hstep : ∀ c, resp a = some c → respOk c = false :=
      fun c' hc' => hfail 0 (Nat.succ_pos m) c' (by simpa using hc')
    have hat := sendLoop_fail_attempts resp now j a r' hstep
    have hsuc := sendLoop_fail_success resp now j a r' hstep
    have hs' : (sendLoop resp now
        { j with webhook_attempts := j.webhook_attempts + 1 }
        (a + 1) r').success = true := by rw [← hsuc]; exact hs
    have hlow := ih { j with webhook_attempts := j.webhook_attempts + 1 }
      (a + 1) r' (by omega)
      (fun i hi c' hc' => hfail (i + 1) (by omega) c'
        (by rw [show a + (i + 1) = a + 1 + i from by omega]; exact hc'))
      hs'
    omega

/-- C3 counterexample: against a target that always answers HTTP 500,
`send_webhook` does make exactly 3 attempts and fail, but it sleeps after
every failed attempt including the last — the backoff waits are
`[5, 10, 20]`, not only the two waits `[5, 10]` between consecutive
attempts. -/
theorem send_webhook_backoff_cex :
    (send_webhook (fun _ => some 500) jobHooked 0).attempts = 3 ∧
    (send_webhook (fun _ => some 500) jobHooked 0).success = false ∧
    (send_webhook (fun _ => some 500) jobHooked 0).waits = [5, 10, 20] ∧
    (send_webhook (fun _ => some 500) jobHooked 0).waits ≠ [5, 10] := by
  exact ⟨rfl, rfl, rfl, by decide⟩

/-- C3 amended: with a non-empty `webhookURL`, a target that never returns
an ok response gets exactly `MAX_RETRIES = 3` attempts and a failure
result, with a backoff wait of `RETRY_DELAY * 2^attemptIndex` after every
failed attempt including the final one (5s, 10s, then 20s); and whatever
attempt index `k` the first ok response arrives at, the call returns
success immediately at that attempt — `k + 1` attempts in all, with
exactly the `k` backoff waits that preceded the success and none after
it. -/
theorem send_webhook_retry_policy (resp : Nat → Option Nat) (j : Job)
    (now : ℚ) (hurl : j.webhook_url ≠ "") :
    ((∀ i c, resp i = some c → respOk c = false) →
      (send_webhook resp j now).success = false ∧
      (send_webhook resp j now).attempts = 3 ∧
      (send_webhook resp j now).waits = [5, 10, 20]) ∧
    (∀ k, k < MAX_RETRIES →
      (∀ i, i < k → ∀ c, resp i = some c → respOk c = false) →
      ∀ c, resp k = some c → respOk c = true →
      (send_webhook resp j now).success = true ∧
      (send_webhook resp j now).attempts = k + 1 ∧
      (send_webhook resp j now).waits =
        (List.range k).map (fun i => RETRY_DELAY * 2 ^ i)) := by
  unfold send_webhook
  rw [if_neg hurl]
  constructor
  · intro hfail
    rw [sendLoop_all_fail resp now hfail MAX_RETRIES j 0]
    exact ⟨rfl, rfl, rfl⟩
  · intro k hk hfail c hc hok
    rw [sendLoop_succeeds_at resp now k j 0 MAX_RETRIES hk
      (fun i hi c' hc' => hfail i hi c' (by simpa using hc'))
      c (by simpa using hc) hok]
    refine ⟨rfl, rfl, ?_⟩
    simp

/-- Witness for the amended C3 at concrete inputs: a target always
answering 500 yields waits `[5, 10, 20]` and failure; a target answering
500 once and then 200 succeeds at attempt index 1 — two attempts, the
single 5s wait before the success and none after it. -/
theorem send_webhook_retry_policy_witness :
    (send_webhook (fun _ => some 500) jobHooked 1).waits = [5, 10, 20] ∧
    (send_webhook (fun i => if i = 0 then some 500 else some 200)
      jobHooked 1).success = true ∧
    (send_webhook (fun i => if i = 0 then some 500 else some 200)
      jobHooked 1).attempts = 2 ∧
    (send_webhook (fun i => if i = 0 then some 500 else some 200)
      jobHooked 1).waits = [5] := by
  have h2 := (send_webhook_retry_policy
      (fun i => if i = 0 then some 500 else some 200) jobHooked 1
      (by decide)).2 1 (by decide)
    (fun i hi c hc => by
      have hi0 : i = 0 := by omega
      rw [hi0] at hc
      injection hc with h
      exact h ▸ rfl)
    200 rfl rfl
  exact ⟨((send_webhook_retry_policy (fun _ => some 500) jobHooked 1
      (by decide)).1 (fun i c h => by cases h; rfl)).2.2,
    h2.1, h2.2.1, h2.2.2⟩

/-- C4 counterexample: a call whose single attempt succeeds (target
answers 200) leaves `webhook_attempts` at 0, not 1; and a fully failed
call (three attempts against a 500 target) never sets
`last_webhook_attempt`. -/
theorem send_webhook_side_effects_cex :
    (send_webhook (fun _ => some 200) jobHooked 0).attempts = 1 ∧
    (send_webhook (fun _ => some 200) jobHooked 0).job.webhook_attempts = 0 ∧
    (send_webhook (fun _ => some 500) jobHooked 0).attempts = 3 ∧
    (send_webhook (fun _ => some 500) jobHooked 0).job.last_webhook_attempt
      = none := by
  exact ⟨rfl, rfl, rfl, rfl⟩

/-- C4 amended: on a non-empty `webhookURL`, each failed attempt — and
only a failed attempt — increments `webhook_attempts`, and only a
successful attempt records `last_webhook_attempt`: after a call making `k`
attempts the counter has grown by `k` minus one if the call succeeded, and
the timestamp is set exactly when the call succeeded. -/
theorem send_webhook_attempt_state (resp : Nat → Option Nat) (j : Job)
    (now : ℚ) (hurl : j.webhook_url ≠ "") :
    (send_webhook resp j now).job.webhook_attempts =
      j.webhook_attempts + ((send_webhook resp j now).attempts -
        (if (send_webhook resp j now).success then 1 else 0)) ∧
    (send_webhook resp j now).job.last_webhook_attempt =
      (if (send_webhook resp j now).success then some now
       else j.last_webhook_attempt) := by
  unfold send_webhook
  rw [if_neg hurl]
  exact ⟨(sendLoop_effects resp now MAX_RETRIES j 0).1,
    (sendLoop_effects resp now MAX_RETRIES j 0).2.1⟩

/-- Witness for the amended C4: three failed attempts push the counter of
`jobHooked` from 0 to 3; one successful attempt records the timestamp. -/
theorem send_webhook_attempt_state_witness :
    (send_webhook (fun _ => some 500) jobHooked 2).job.webhook_attempts
      = 3 ∧
    (send_webhook (fun _ => some 200) jobHooked 2).job.last_webhook_attempt
      = some 2 := by
  constructor
  · exact ((send_webhook_attempt_state (fun _ => some 500) jobHooked 2
      (by decide)).1).trans rfl
  · exact ((send_webhook_attempt_state (fun _ => some 200) jobHooked 2
      (by decide)).2).trans rfl

/-- C5 counterexample: an HTTP 304 response — not in the 2xx range — is
still treated as accepted: the call succeeds on that single attempt. -/
theorem send_webhook_accept_cex :
    (send_webhook (fun _ => some 304) jobHooked 0).success = true ∧
    (send_webhook (fun _ => some 304) jobHooked 0).attempts = 1 ∧
    ¬(200 ≤ 304 ∧ 304 < 300) := by
  exact ⟨rfl, rfl, by decide⟩

/-- C5 amended: on a non-empty `webhookURL`, consider any attempt index
`k < MAX_RETRIES` the loop reaches (the earlier POSTs all having failed).
That attempt is the accepted one — the call returns success after exactly
`k + 1` attempts — if and only if its POST draws a response whose status
code satisfies `response.ok`, i.e. is below 400 (2xx or 3xx); a transport
exception or a response of 400 and above counts as a failed attempt and
takes the retry path instead. -/
theorem send_webhook_accept_iff_ok (resp : Nat → Option Nat) (j : Job)
    (now : ℚ) (hurl : j.webhook_url ≠ "") (k : Nat)
    (hk : k < MAX_RETRIES)
    (hprev : ∀ i, i < k → ∀ c, resp i = some c → respOk c = false) :
    ((send_webhook resp j now).success = true ∧
      (send_webhook resp j now).attempts = k + 1) ↔
    (∃ c, resp k = some c ∧ respOk c = true) := by
  unfold send_webhook
  rw [if_neg hurl]
  constructor
  · rintro ⟨hs, ha⟩
    by_cases hgood : ∃ c, resp k = some c ∧ respOk c = true
    · exact hgood
    · exfalso
      have hall : ∀ i, i < k + 1 → ∀ c, resp (0 + i) = some c →
          respOk c = false := by
        intro i hi c hc
        rw [Nat.zero_add] at hc
        rcases Nat.lt_succ_iff_lt_or_eq.mp hi with hi' | rfl
        · exact hprev i hi' c hc
        · cases hoc : respOk c with
          | false => rfl
          | true => exact absurd ⟨c, hc, hoc⟩ hgood
      have hlow := sendLoop_fail_lower resp now (k + 1) j 0 MAX_RETRIES
        (by omega) hall hs
      omega
  · rintro ⟨c, hc, hok⟩
    rw [sendLoop_succeeds_at resp now k j 0 MAX_RETRIES hk
      (fun i hi c' hc' => hprev i hi c' (by simpa using hc'))
      c (by simpa using hc) hok]
    exact ⟨rfl, rfl⟩

/-- Witness for the amended C5 at attempt index 1: after a transport
exception on attempt 0, a 304 response — ok but not 2xx — is accepted:
the call succeeds with exactly two attempts. -/
theorem send_webhook_accept_iff_ok_witness :
    (send_webhook (fun i => if i = 0 then none else some 304)
      jobHooked 1).success = true ∧
    (send_webhook (fun i => if i = 0 then none else some 304)
      jobHooked 1).attempts = 2 :=
  (send_webhook_accept_iff_ok (fun i => if i = 0 then none else some 304)
    jobHooked 1 (by decide) 1 (by decide)
    (fun i hi c hc => by
      have hi0 : i = 0 := by omega
      rw [hi0] at hc
      simp at hc)).mpr ⟨304, rfl, rfl⟩

/-- C6: with an empty (falsy) `webhookURL`, `send_webhook` returns success
immediately — no POST, no wait, no change to the job. -/
theorem send_webhook_empty_url (resp : Nat → Option Nat) (j : Job)
    (now : ℚ) (h : j.webhook_url = "") :
    send_webhook resp j now = ⟨true, j, 0, []⟩ := by
  unfold send_webhook
  rw [if_pos h]

/-- Witness for C6: a job without a webhook URL yields success with zero
attempts even against a target that would always answer 500. -/
theorem send_webhook_empty_url_witness :
    send_webhook (fun _ => some 500) jobNoHook 0 =
      ⟨true, jobNoHook, 0, []⟩ :=
  send_webhook_empty_url (fun _ => some 500) jobNoHook 0 rfl

/-- C9: `send_webhook` never modifies the fields that determine derived
status — `id`, `start_time`, `duration`, `webhook_url` and `has_error` are
unchanged whatever the outcome, so `get_status` agrees before and after
any delivery at every observation time. -/
theorem send_webhook_frame (resp : Nat → Option Nat) (j : Job) (now : ℚ) :
    (send_webhook resp j now).job.id = j.id ∧
    (send_webhook resp j now).job.start_time = j.start_time ∧
    (send_webhook resp j now).job.duration = j.duration ∧
    (send_webhook resp j now).job.webhook_url = j.webhook_url ∧
    (send_webhook resp j now).job.has_error = j.has_error ∧
    ∀ t, (send_webhook resp j now).job.get_status t = j.get_status t := by
  unfold send_webhook
  by_cases h : j.webhook_url = ""
  · rw [if_pos h]
    exact ⟨rfl, rfl, rfl, rfl, rfl, fun t => rfl⟩
  · rw [if_neg h]
    obtain ⟨h1, h2, h3, h4, h5⟩ := sendLoop_frame resp now MAX_RETRIES j 0
    refine ⟨h1, h2, h3, h4, h5, fun t => ?_⟩
    unfold Job.get_status
    rw [h2, h3, h5]

/-- For a faulted job, `get_status` resolves to `Error`, so once
`previous_status` holds that permanent value the loop body's
`current_status != previous_status` test is false on every tick: the
`break` is unreachable and no webhook is ever sent. -/
theorem monitorRun_faulted (resp : Nat → Option Nat) (j : Job)
    (he : j.has_error = true) :
    ∀ ts : List ℚ, monitorRun resp j Status.error ts = (false, 0) := by
  intro ts
  induction ts with
  | nil => rfl
  | cons t ts ih =>
    have hst : j.get_status t = Status.error := by simp [Job.get_status, he]
    rw [monitorRun]
    simp [hst, ih]

/-- C1 (on the failing input): for a job whose status is already terminal
at the monitor's very first observation — any faulted job — the monitor
loop never exits and never notifies, however many polling ticks happen:
the `break` of `_monitor_job_status` sits inside the
`current_status != previous_status` branch, and for such a job the two are
always equal.  The claim (and the spec scenario of one notification for a
forced-faulted job) says the loop exits at the first terminal observation;
the code polls forever. -/
theorem monitor_faulted_never_exits (resp : Nat → Option Nat) (j : Job)
    (t0 : ℚ) (times : List ℚ) (he : j.has_error = true) :
    monitor resp j t0 times = (false, 0) := by
  unfold monitor
  have h0 : j.get_status t0 = Status.error := by simp [Job.get_status, he]
  rw [h0]
  exact monitorRun_faulted resp j he times

/-- Witness for C1's failing input: the forced-faulted job observed at
ticks 0..3 — the monitor has neither exited nor fired any notification. -/
theorem monitor_faulted_never_exits_witness :
    monitor (fun _ => some 200) jobFaulted 0 [0, 1, 2, 3] = (false, 0) :=
  monitor_faulted_never_exits (fun _ => some 200) jobFaulted 0 [0, 1, 2, 3]
    rfl

/-- C8 counterexample: in `src/main.py`, looking up an id absent from the
store hands the framework a plain `{"error": ...}` body — a normal return
value (HTTP 200 path), not a 404 error. -/
theorem lookup_not_found_cex :
    main_get_status [] "abc" =
      LookupResult.errorBody "error" "Job with id: {id} was not found" ∧
    main_get_status [] "abc" ≠
      LookupResult.http404 "Job with id: abc was not found" := by
  exact ⟨rfl, by decide⟩

/-- C8 amended: for an id absent from the store, `src/server.py`'s lookup
raises a client-visible 404 `HTTPException`, while `src/main.py`'s lookup
instead returns a normal response whose body is an error dict (no 404). -/
theorem lookup_not_found (st : Store) (n : Nat) (s : String)
    (hn : st.find (Key.uuid n) = none)
    (hs : st.find (Key.str s) = none) :
    server_get_status st n =
      LookupResult.http404
        ("Job with id: " ++ toString n ++ " was not found") ∧
    main_get_status st s =
      LookupResult.errorBody "error" "Job with id: {id} was not found" := by
  unfold server_get_status main_get_status
  rw [hn, hs]
  exact ⟨rfl, rfl⟩

/-- Witness for the amended C8 on the empty store. -/
theorem lookup_not_found_witness :
    server_get_status [] 5 =
      LookupResult.http404
        ("Job with id: " ++ toString 5 ++ " was not found") ∧
    main_get_status [] "zzz" =
      LookupResult.errorBody "error" "Job with id: {id} was not found" :=
  lookup_not_found [] 5 "zzz" rfl rfl

/-- C10: `create_translation` stores every job under its `uuid.UUID` key,
while `src/main.py`'s lookup searches for the `str` path parameter; a
string key never equals a UUID key, so over any store built by creations
the lookup of any string — including the string form of a created job's
id — takes the not-found branch. -/
theorem created_jobs_unreachable (js : List Job) (s : String) :
    main_get_status (mkStore js) s =
      LookupResult.errorBody "error" "Job with id: {id} was not found" := by
  have hkeys : ∀ (st : Store), (∀ p ∈ st, ∃ n, p.1 = Key.uuid n) →
      ∀ p ∈ js.foldl create_translation st, ∃ n, p.1 = Key.uuid n := by
    induction js with
    | nil => intro st hst; exact hst
    | cons j js ih =>
      intro st hst
      simp only [List.foldl_cons]
      refine ih (create_translation st j) ?_
      intro q hq
      rcases List.mem_cons.mp hq with hq | hq
      · exact ⟨j.id, by rw [hq]⟩
      · exact hst q hq
  have hall : ∀ p ∈ mkStore js, ∃ n, p.1 = Key.uuid n :=
    hkeys [] (by intro p hp; cases hp)
  have hfind : (mkStore js).find (Key.str s) = none := by
    unfold Store.find
    rw [Option.map_eq_none']
    rw [List.find?_eq_none]
    intro p hp
    obtain ⟨n, hn⟩ := hall p hp
    simp [hn]
  unfold main_get_status
  rw [hfind]
